import Mathlib

/-!
Verification of the 10Q-Scraper backend (src/backend/main.py and
src/backend/fdic_scraper.py) against its natural-language specification.

The Python code is shallowly embedded: the rate limiter, the session
check, the expired-job sweep and the download endpoint are pure
state-passing functions; the background worker `process_job` is embedded
as a function from an environment describing the outcomes of the external
SEC-Edgar calls to the trace of successive job-record states it writes.
Wall-clock instants are modelled as integers (the code only compares and
subtracts them); tables are modelled by their sequence of row labels,
which is the only aspect of a DataFrame the stated properties observe.
-/

namespace SecScraper

/-! ## Rate limiting (main.py lines 43-95) -/

/-- RATE_LIMIT_REQUESTS constant from main.py (requests per window). -/
def RATE_LIMIT_REQUESTS : Nat := 10

/-- RATE_LIMIT_WINDOW constant from main.py (window length in seconds).
Instants from `time.time()` are modelled as integers; the limiter only
compares and subtracts them, so only their ordering matters. -/
def RATE_LIMIT_WINDOW : Int := 60

/-- Embedding of `check_rate_limit` acting on one key's stored timestamp
list (`rate_limit_storage[client_ip]`).  Returns the result of the check
together with the list stored back for that key: stale entries with
`t <= now - window` are rebuilt out of the list, then the call is denied
if at least the limit remain, else `now` is appended and it is allowed. -/
def check_rate_limit (stored : List Int) (now : Int) : Bool × List Int :=
  let window_start := now - RATE_LIMIT_WINDOW
  let kept := stored.filter (fun t => decide (window_start < t))
  if RATE_LIMIT_REQUESTS ≤ kept.length then (false, kept)
  else (true, kept ++ [now])

/-- `check_rate_limit` on the whole `rate_limit_storage` map (a
`defaultdict(list)`, so a missing key reads as `[]`). -/
def check_rate_limit_map (storage : String → List Int) (client_ip : String) (now : Int) :
    Bool × (String → List Int) :=
  let r := check_rate_limit (storage client_ip) now
  (r.1, fun k => if k = client_ip then r.2 else storage k)

/-- Drive a sequence of calls against one key, starting from a given
stored list, returning the admission result of each call in order. -/
def simCalls : List Int → List Int → List Bool
  | _, [] => []
  | stored, t :: ts =>
    let r := check_rate_limit stored t
    r.1 :: simCalls r.2 ts

/-- The admission check as the claim words it, for comparison with
`check_rate_limit`: first drop exactly the timestamps strictly older than
`now` minus the window (so a timestamp at the boundary `now - 60` is
kept), then deny iff at least the limit remain. -/
def claimRateAdmit (stored : List Int) (now : Int) : Bool :=
  let kept := stored.filter (fun t => decide (now - RATE_LIMIT_WINDOW ≤ t))
  !decide (RATE_LIMIT_REQUESTS ≤ kept.length)

/-! ## Sessions (main.py lines 39-41 and 120-134) -/

/-- Embedding of `verify_session`.  The session store is the `sessions`
dict (token to expiry); the result pairs the returned Bool with the store
left behind.  Mirrors the source: a falsy token (`None` or the empty
string) fails before lookup; a missing token fails; a token whose expiry
is strictly in the past is deleted and fails; otherwise the token is
accepted. -/
def verify_session (sessions : String → Option Int) (token : Option String) (now : Int) :
    Bool × (String → Option Int) :=
  match token with
  | none => (false, sessions)
  | some t =>
    if t = "" then (false, sessions)
    else
      match sessions t with
      | none => (false, sessions)
      | some expiry =>
        if expiry < now then (false, fun k => if k = t then none else sessions k)
        else (true, sessions)

/-- Session validity as the claim words it, for comparison with
`verify_session`: valid iff the token is present in the store and the
current time is strictly before its expiry. -/
def claimIsValid (sessions : String → Option Int) (token : Option String) (now : Int) : Bool :=
  match token with
  | none => false
  | some t =>
    match sessions t with
    | none => false
    | some expiry => decide (now < expiry)

/-! ## Job records (main.py lines 48-50, 407-415) -/

/-- JOB_EXPIRY constant from main.py (one hour), in seconds. -/
def JOB_EXPIRY : Int := 3600

/-- One entry of the `jobs` dict.  Keys that a record may or may not
carry (`error`, `result`, `filename`, `expires_at`) are `Option`s; the
`result` bytes are a list of byte values.  The job's `status` string is
one of "pending", "processing", "completed", "error" (the source's
spelling of the Failed state). -/
structure Job where
  status : String
  message : Option String := none
  error : Option String := none
  result : Option (List Nat) := none
  filename : Option String := none
  ticker : String := ""
  created_at : Int := 0
  expires_at : Option Int := none
deriving DecidableEq

/-- The job record created by `generate_excel` (main.py lines 408-415)
before the worker thread is started. -/
def newJob (ticker : String) (now : Int) : Job :=
  { status := "pending"
    message := some "Starting job..."
    created_at := now
    expires_at := some (now + JOB_EXPIRY)
    ticker := ticker.toUpper }

/-! ## Expired-job sweep (main.py lines 311-319) -/

/-- Embedding of `cleanup_expired_jobs`: the `jobs` dict is an
association list (unique keys, insertion order); an entry is removed iff
`now > job.get("expires_at", now)`, i.e. iff it has an `expires_at` and
that instant is strictly in the past. -/
def cleanup_expired_jobs (jobs : List (String × Job)) (now : Int) : List (String × Job) :=
  jobs.filter (fun p => !decide (p.2.expires_at.getD now < now))

/-! ## Download endpoint (main.py lines 442-466) -/

/-- Lookup of `jobs[job_id]` in the association-list model of the dict. -/
def dictGet : List (String × Job) → String → Option Job
  | [], _ => none
  | p :: ps, job_id => if p.1 = job_id then some p.2 else dictGet ps job_id

/-- Embedding of `download_job_result` after authentication: 404 when the
id is unknown, 400 when the job is not completed, 500 when a completed
job has no stored result, else the stored bytes with the attachment
filename (defaulting to "report.xlsx"). -/
def download_job_result (jobs : List (String × Job)) (job_id : String) :
    Except Nat (List Nat × String) :=
  match dictGet jobs job_id with
  | none => Except.error 404
  | some job =>
    if job.status ≠ "completed" then Except.error 400
    else
      match job.result with
      | none => Except.error 500
      | some r => Except.ok (r, job.filename.getD "report.xlsx")

/-! ## Tables and the sheet layout (main.py lines 261-295) -/

/-- A DataFrame is modelled by its sequence of row labels; cell contents
are irrelevant to every property stated here.  `len(df)` is the list
length and `df.empty` is emptiness of the list. -/
abbrev Table := List String

/-- BATCH_SIZE constant from main.py. -/
def BATCH_SIZE : Nat := 5

/-- Embedding of `pd.concat(dfs, axis=1)` on the row-label level: the
resulting row set is the ordered union of the inputs' labels (and
`concatCols [] = []` matches the `pd.DataFrame()` fallback of lines
266-269). -/
def concatCols (dfs : List Table) : Table :=
  dfs.foldl (fun acc t => acc ++ t.filter (fun r => !decide (r ∈ acc))) []

/-- The four start rows BS_ROW, IS_ROW, CF_ROW, SE_ROW computed at
main.py lines 279-282. -/
def layoutOffsets (BS IS CF _SE : Table) : Nat × Nat × Nat × Nat :=
  let bsRow := 0
  let isRow := BS.length + 2
  let cfRow := isRow + IS.length + 1
  let seRow := cfRow + CF.length + 1
  (bsRow, isRow, cfRow, seRow)

/-- One `to_excel` call: the start row, the written table, and whether
the header row is written. -/
structure BlockWrite where
  startrow : Nat
  table : Table
  header : Bool
deriving DecidableEq

/-- The sequence of `to_excel` calls performed at main.py lines 285-293:
each of the four tables is written at its computed offset, skipped when
empty, and only the first block keeps its header. -/
def sheetWrites (BS IS CF SE : Table) : List BlockWrite :=
  let o := layoutOffsets BS IS CF SE
  (if BS.isEmpty then [] else [⟨o.1, BS, true⟩])
    ++ (if IS.isEmpty then [] else [⟨o.2.1, IS, false⟩])
    ++ (if CF.isEmpty then [] else [⟨o.2.2.1, CF, false⟩])
    ++ (if SE.isEmpty then [] else [⟨o.2.2.2, SE, false⟩])

/-- Modelled from the spec: the SheetWriter collaborator (pandas
ExcelWriter/openpyxl, outside this repository) must "produce a single
downloadable binary payload".  An xlsx stream is a zip container, which
always begins with the magic bytes 0x50 0x4B; the block structure is
serialized after them.  Only nonemptiness and dependence on the written
blocks matter to the stated properties. -/
def xlsxBytes (writes : List BlockWrite) : List Nat :=
  0x50 :: 0x4B :: writes.foldr (fun w acc => w.startrow :: w.table.length :: acc) []

/-! ## The background worker (main.py lines 162-308) -/

/-- Outcomes of the external SEC-Edgar calls made by one run of
`process_job`: whether `edgar.Company(ticker)` resolves, how many 10-Q
filings the filter finds, which batches fail at the XBRL-parse level
(the `except` at line 249), which of the four statement kinds each batch
yields (none = the per-kind `except` fired), and whether the
concatenation/Excel-serialization steps (lines 266-295) succeed
(`excMsg` is the exception text otherwise). -/
structure WorkerEnv where
  tickerOk : Bool
  totalFilings : Nat
  batchFails : Nat → Bool
  bsTab : Nat → Option Table
  isTab : Nat → Option Table
  cfTab : Nat → Option Table
  seTab : Nat → Option Table
  assemblyOk : Bool
  excMsg : String

/-- The four per-batch accumulation lists of `process_job`
(lines 198-201). -/
structure BatchAcc where
  all_bs_dfs : List Table
  all_is_dfs : List Table
  all_cf_dfs : List Table
  all_se_dfs : List Table
deriving DecidableEq

/-- Appends each statement kind a successfully parsed batch yields
(lines 220-242): a kind whose extraction failed is simply omitted. -/
def pushBatch (env : WorkerEnv) (b : Nat) (acc : BatchAcc) : BatchAcc :=
  { all_bs_dfs := acc.all_bs_dfs ++ (env.bsTab b).toList
    all_is_dfs := acc.all_is_dfs ++ (env.isTab b).toList
    all_cf_dfs := acc.all_cf_dfs ++ (env.cfTab b).toList
    all_se_dfs := acc.all_se_dfs ++ (env.seTab b).toList }

/-- Effect of one loop iteration on the accumulation lists: a batch that
fails to parse contributes nothing (the `continue` at line 253). -/
def stepAcc (env : WorkerEnv) (acc : BatchAcc) (b : Nat) : BatchAcc :=
  if env.batchFails b then acc else pushBatch env b acc

/-- The accumulation lists after a run of loop iterations. -/
def accAfter (env : WorkerEnv) (l : List Nat) (acc : BatchAcc) : BatchAcc :=
  l.foldl (stepAcc env) acc

/-- The guard of line 256: `not all_bs_dfs and not all_is_dfs and ...`. -/
def allEmpty (acc : BatchAcc) : Bool :=
  acc.all_bs_dfs.isEmpty && acc.all_is_dfs.isEmpty
    && acc.all_cf_dfs.isEmpty && acc.all_se_dfs.isEmpty

/-- A terminal failure write: `jobs[id]["status"] = "error"` followed by
`jobs[id]["error"] = msg`. -/
def mkFail (j : Job) (msg : String) : Job :=
  { j with status := "error", error := some msg }

/-- The error message written at line 258. -/
def noDataMsg : String := "Failed to extract any financial data from filings."

/-- `num_batches = (total_filings + BATCH_SIZE - 1) // BATCH_SIZE`
(line 203). -/
def numBatches (total : Nat) : Nat := (total + BATCH_SIZE - 1) / BATCH_SIZE

/-- The progress message written at line 210 for batch `b` (0-based). -/
def batchMsg (b nb total : Nat) : String :=
  "Processing batch " ++ toString (b + 1) ++ "/" ++ toString nb ++ " ("
    ++ toString (b * BATCH_SIZE + 1) ++ "-" ++ toString (min ((b + 1) * BATCH_SIZE) total)
    ++ " of " ++ toString total ++ " filings)..."

/-- The code after the batch loop (main.py lines 255-308): the
all-batches-empty failure, or the concatenation, layout, Excel
serialization and the completed write; an exception in those assembly
steps falls to the global handler of lines 304-308.  Each element of the
returned list is the job record after one contiguous group of updates. -/
def postBatches (env : WorkerEnv) (ticker : String) (j : Job) (acc : BatchAcc) : List Job :=
  if allEmpty acc then [mkFail j noDataMsg]
  else if env.assemblyOk then
    [{ j with message := some "Combining batched results..." },
     { j with message := some "Creating Excel file..." },
     { j with
       status := "completed"
       message := some ("Report ready! Processed " ++ toString env.totalFilings
         ++ " filings.")
       result := some (xlsxBytes (sheetWrites (concatCols acc.all_bs_dfs)
         (concatCols acc.all_is_dfs) (concatCols acc.all_cf_dfs)
         (concatCols acc.all_se_dfs)))
       filename := some (ticker.toUpper ++ "_10Q_Financials.xlsx") }]
  else
    [{ j with message := some "Combining batched results..." },
     { j with message := some "Creating Excel file..." },
     mkFail { j with message := some "Creating Excel file..." }
       ("An unexpected error occurred: " ++ env.excMsg)]

/-- The batch loop of main.py lines 205-253 followed by the post-loop
code: each iteration writes the progress message and accumulates the
batch's tables. -/
def batchPhase (env : WorkerEnv) (ticker : String) :
    List Nat → Job → BatchAcc → List Job
  | [], j, acc => postBatches env ticker j acc
  | b :: rest, j, acc =>
    let j' := { j with message := some (batchMsg b (numBatches env.totalFilings) env.totalFilings) }
    j' :: batchPhase env ticker rest j' (stepAcc env acc b)

/-- Embedding of `process_job` as the trace of successive states of the
job's record, one per contiguous group of writes the worker performs
(`name` and `email` only feed the Edgar identity string and logging, so
they are omitted).  The worker never touches the record again after its
terminal write. -/
def process_job (env : WorkerEnv) (ticker : String) (j0 : Job) : List Job :=
  let j1 := { j0 with status := "processing", message := some "Setting up SEC identity..." }
  let j2 := { j1 with message := some ("Fetching company data for " ++ ticker ++ "...") }
  if env.tickerOk then
    let j3 := { j2 with message := some "Fetching 10-Q filings since 2010..." }
    if env.totalFilings = 0 then
      [j1, j2, j3, mkFail j3 ("No 10-Q filings found for " ++ ticker ++ " since 2010.")]
    else
      j1 :: j2 :: j3 ::
        batchPhase env ticker (List.range (numBatches env.totalFilings)) j3 ⟨[], [], [], []⟩
  else
    [j1, j2,
      mkFail j2 ("Invalid company ticker: " ++ ticker
        ++ ". Please check the ticker symbol and try again.")]

/-- The job record once the worker has returned. -/
def process_jobFinal (env : WorkerEnv) (ticker : String) (j0 : Job) : Job :=
  (process_job env ticker j0).getLastD j0

/-- The status transitions the spec allows for one step of the worker:
either the status is unchanged, or it is one of Pending to Processing,
Processing to Completed, Processing to Failed ("error"). -/
def stepOK (a b : Job) : Prop :=
  b.status = a.status ∨
    (a.status = "pending" ∧ b.status = "processing") ∨
    (a.status = "processing" ∧ (b.status = "completed" ∨ b.status = "error"))

instance : DecidableRel stepOK := fun a b => by
  unfold stepOK; infer_instance

/-- The record invariant of the spec: `result` is set iff the state is
Completed, `error` is set iff the state is Failed ("error"). -/
def jobInv (j : Job) : Prop :=
  (j.result.isSome ↔ j.status = "completed") ∧ (j.error.isSome ↔ j.status = "error")

/-! ## Concrete witness data -/

/-- An environment in which every batch fails to parse. -/
def envAllFail : WorkerEnv :=
  { tickerOk := true
    totalFilings := 7
    batchFails := fun _ => true
    bsTab := fun _ => none
    isTab := fun _ => none
    cfTab := fun _ => none
    seTab := fun _ => none
    assemblyOk := true
    excMsg := "boom" }

/-- An environment in which every batch yields a balance sheet. -/
def envAllOk : WorkerEnv :=
  { tickerOk := true
    totalFilings := 7
    batchFails := fun _ => false
    bsTab := fun _ => some ["Assets"]
    isTab := fun _ => none
    cfTab := fun _ => none
    seTab := fun _ => none
    assemblyOk := true
    excMsg := "" }

/-- A session store holding one token with expiry 100. -/
def sessions1 : String → Option Int :=
  fun k => if k = "tok" then some 100 else none

/-- A job record still being processed whose expiry has passed. -/
def procJob : Job :=
  { status := "processing"
    message := some "Processing batch 1/2 (1-5 of 7 filings)..."
    ticker := "IBM"
    created_at := 0
    expires_at := some 10 }

/-- A completed job record lacking an `expires_at` key. -/
def jobNoExp : Job :=
  { status := "completed"
    message := some "Report ready! Processed 7 filings."
    result := some [80, 75]
    filename := some "IBM_10Q_Financials.xlsx"
    ticker := "IBM" }

/-! ## fdic_scraper.py: process_data (lines 230-281) -/

/-- Effect of `df.loc[label] = ...` on the row-label sequence: appended
at the end when new, left in place when already present. -/
def addRow (idx : List String) (label : String) : List String :=
  if label ∈ idx then idx else idx ++ [label]

/-- The derived-metric labels assigned by `apply_calculations`
(fdic_scraper.py lines 57-179), in assignment order. -/
def calcLabels : List String :=
  ["Assets", "Loans", "Investment Securities", "Investments/Assets", "Deposits",
   "Loan-to-Deposit Ratio", "Brokered Deposits", "Brokered Deposits/Total Deposits",
   "Borrowings", "Borrowings/Assets", "GAAP Capital", "GAAP Capital/Assets",
   "Non-Owner Occupied Commercial Real Estate/Total Capital", "Net Interest Margin",
   "Net Income", "Efficiency Ratio", "Annualized Earnings (Pre-Tax)",
   "Annualized Earnings (Tax Adjusted)", "Return on Assets", "Return on Equity",
   "Allowance for Loan Losses", "CECL Adoption", "Allowance/Loans",
   "YTD Provision for Loan Losses", "YTD Net Charge-Offs (Recoveries)",
   "Annualized Losses/Loans", "90 Days Past Due & Nonaccrual Loans",
   "Non-Performing Loans Ratio", "Other Real Estate Owned",
   "(90 Days Past Due + Nonaccrual + REO) / (Capital + Allowance)",
   "Tier 1 Leverage Ratio", "Common Equity Tier 1 Ratio", "Tier 1 Risk Based Ratio",
   "Total Risk Based Ratio", "Capital Contribution", "Ineligible Intangibles",
   "YTD Taxes Paid", "YTD Taxes Paid as a Percentage of Income"]

/-- The `gap_after` list of fdic_scraper.py lines 200-204. -/
def gap_after : List String :=
  ["Assets", "Borrowings/Assets", "Return on Equity",
   "(90 Days Past Due + Nonaccrual + REO) / (Capital + Allowance)",
   "Total Risk Based Ratio", "Ineligible Intangibles"]

/-- Inserts the blank gap label right after the first occurrence of a
row (the concat of `top`, `gap_row`, `bottom` at lines 208-212). -/
def insertAfterFirst : List String → String → List String
  | [], _ => []
  | x :: xs, row => if x = row then x :: "" :: xs else x :: insertAfterFirst xs row

/-- One iteration of the gap-insertion loop: only rows present in the
index get a gap. -/
def insertGap (idx : List String) (row : String) : List String :=
  if row ∈ idx then insertAfterFirst idx row else idx

/-- Effect of `apply_calculations` on the row-label sequence: the derived
metrics are assigned in order, then the blank gap rows are inserted
iterating `reversed(gap_after)`; the formatting section does not change
the index. -/
def apply_calculations (base : List String) : List String :=
  gap_after.reverse.foldl insertGap (calcLabels.foldl addRow base)

/-- The `ordered_rows` list of fdic_scraper.py lines 255-271. -/
def ordered_rows : List String :=
  ["Assets", "Loans", "Investment Securities", "Investments/Assets", "Deposits",
   "Loan-to-Deposit Ratio", "Brokered Deposits", "Brokered Deposits/Total Deposits",
   "Borrowings", "Borrowings/Assets", "GAAP Capital", "GAAP Capital/Assets",
   "Non-Owner Occupied Commercial Real Estate/Total Capital", "Net Interest Margin",
   "Net Income", "Efficiency Ratio", "Annualized Earnings (Pre-Tax)",
   "Annualized Earnings (Tax Adjusted)", "Return on Assets", "Return on Equity",
   "Allowance for Loan Losses", "CECL Adoption", "Allowance/Loans",
   "YTD Provision for Loan Losses", "YTD Net Charge-Offs (Recoveries)",
   "Annualized Losses/Loans", "90 Days Past Due & Nonaccrual Loans",
   "Non-Performing Loans Ratio", "Other Real Estate Owned",
   "(90 Days Past Due + Nonaccrual + REO) / (Capital + Allowance)",
   "Tier 1 Leverage Ratio", "Common Equity Tier 1 Ratio", "Tier 1 Risk Based Ratio",
   "Total Risk Based Ratio", "Capital Contribution", "Ineligible Intangibles",
   "YTD Taxes Paid", "YTD Taxes Paid as a Percentage of Income"]

/-- Keep-first deduplication: `df[~df.index.duplicated(keep="first")]`
(line 274) keeps the first occurrence of every label. -/
def dedupFirst : List String → List String
  | [] => []
  | x :: xs => x :: (dedupFirst xs).filter (fun y => !decide (y = x))

/-- Column order of `pd.DataFrame(records)`: union of the records' keys
in first-seen order. -/
def recordCols (records : List (List String)) : List String :=
  records.foldl (fun acc ks => acc ++ ks.filter (fun k => !decide (k ∈ acc))) []

/-- Embedding of `process_data` on the row-label level.  Each input entry
is the key list of its `"data"` record (the model assumes each record
parses, i.e. carries a REPDTE value — otherwise the source raises instead
of returning).  After the transpose the row labels are the record keys
minus REPDTE; `apply_calculations` adds the metric and gap rows; the two
earnings rows are ensured; then exact duplicates are dropped keep-first
and the frame is reindexed on the `ordered_rows` that are present. -/
def process_data (records : List (List String)) : List String :=
  if records.isEmpty then []
  else
    let base := (recordCols records).filter (fun k => !decide (k = "REPDTE"))
    let idx := apply_calculations base
    let idx2 := addRow (addRow idx "Annualized Earnings (Pre-Tax)")
      "Annualized Earnings (Tax Adjusted)"
    let deduped := dedupFirst idx2
    ordered_rows.filter (fun r => decide (r ∈ deduped))

/-! ## Helper lemmas -/

theorem getLastD_cons' (x d : Job) (l : List Job) : (x :: l).getLastD d = l.getLastD x := by
  cases l <;> simp [List.getLastD]

theorem mem_cleanup_iff (jobs : List (String × Job)) (now : Int) (p : String × Job) :
    p ∈ cleanup_expired_jobs jobs now ↔
      p ∈ jobs ∧ ¬ p.2.expires_at.getD now < now := by
  simp [cleanup_expired_jobs, List.mem_filter]

theorem table_of_mem_optWrite {t : Table} {o : Nat} {hd : Bool} {w : BlockWrite}
    (hw : w ∈ if t.isEmpty then ([] : List BlockWrite) else [⟨o, t, hd⟩]) :
    w.table ≠ [] := by
  by_cases h : t.isEmpty = true
  · simp [h] at hw
  · simp [h] at hw
    subst hw
    intro hnil
    exact h (by simp [show t = [] from hnil])

/-! ## C4: rate limiter -/

/-- C4 counterexample: with ten timestamps recorded at t = 0 and a call
at t = 60, `check_rate_limit` drops the boundary timestamps (it keeps
only `t > now - 60`) and admits the call, while the algorithm as the
claim words it — drop only the timestamps strictly older than
`now - 60` — would retain all ten and deny.  The claim as stated is
therefore false at this input. -/
theorem c4_counterexample :
    (check_rate_limit (List.replicate 10 (0 : Int)) 60).1 = true ∧
      claimRateAdmit (List.replicate 10 (0 : Int)) 60 = false := by
  decide

/-- C4 (amended): for every rate-limit key, each call first drops all
recorded timestamps at or older than `now` minus the 60-second window
(exactly those not strictly newer than `now - 60`), then denies if the
remaining count is at least the limit of 10 (recording nothing new on
denial) and otherwise admits and appends the current timestamp; other
keys are untouched; and concretely, with limit 10 and window 60, calls
1 through 10 at time 0 are admitted, call 11 at time 0 is denied, and a
call at time 61 on the same key is admitted again. -/
theorem c4_rate_limit_amended (storage : String → List Int) (client_ip : String) (now : Int) :
    ((check_rate_limit_map storage client_ip now).1 = false ↔
      RATE_LIMIT_REQUESTS ≤
        ((storage client_ip).filter (fun t => decide (now - RATE_LIMIT_WINDOW < t))).length) ∧
    ((check_rate_limit_map storage client_ip now).1 = false →
      (check_rate_limit_map storage client_ip now).2 client_ip =
        (storage client_ip).filter (fun t => decide (now - RATE_LIMIT_WINDOW < t))) ∧
    ((check_rate_limit_map storage client_ip now).1 = true →
      (check_rate_limit_map storage client_ip now).2 client_ip =
        (storage client_ip).filter (fun t => decide (now - RATE_LIMIT_WINDOW < t)) ++ [now]) ∧
    (∀ k, k ≠ client_ip → (check_rate_limit_map storage client_ip now).2 k = storage k) ∧
    simCalls [] (List.replicate 10 (0 : Int) ++ [0, 61]) =
      List.replicate 10 true ++ [false, true] := by
  refine ⟨?_, ?_, ?_, ?_, by decide⟩
  · unfold check_rate_limit_map check_rate_limit
    by_cases h : RATE_LIMIT_REQUESTS ≤
        ((storage client_ip).filter (fun t => decide (now - RATE_LIMIT_WINDOW < t))).length <;>
      simp [h]
  · unfold check_rate_limit_map check_rate_limit
    by_cases h : RATE_LIMIT_REQUESTS ≤
        ((storage client_ip).filter (fun t => decide (now - RATE_LIMIT_WINDOW < t))).length <;>
      simp [h]
  · unfold check_rate_limit_map check_rate_limit
    by_cases h : RATE_LIMIT_REQUESTS ≤
        ((storage client_ip).filter (fun t => decide (now - RATE_LIMIT_WINDOW < t))).length <;>
      simp [h]
  · intro k hk
    unfold check_rate_limit_map
    simp [hk]

/-! ## C5: session validation -/

/-- C5 counterexample: with the token present and its expiry equal to
the current instant, `verify_session` accepts (the source only rejects
when `now > expiry`), while the claim — valid iff the current time is
strictly before the expiry — says it must be rejected. -/
theorem c5_counterexample :
    (verify_session sessions1 (some "tok") 100).1 = true ∧
      claimIsValid sessions1 (some "tok") 100 = false := by
  decide

/-- C5 (amended): session validation returns true iff the token is a
nonempty string present in the store and the current time is at or
before its expiry (`now <= expiry`); it returns false for a missing (or
empty) token leaving the store unchanged; for a nonempty
present-but-expired token (`expiry < now`) it deletes the entry from
the store as a side effect and returns false; and acceptance never
changes the store. -/
theorem c5_session_amended (sessions : String → Option Int) (token : Option String) (now : Int) :
    ((verify_session sessions token now).1 = true ↔
      ∃ t e, token = some t ∧ t ≠ "" ∧ sessions t = some e ∧ now ≤ e) ∧
    (token = none → verify_session sessions token now = (false, sessions)) ∧
    (∀ t, token = some t → sessions t = none →
      verify_session sessions token now = (false, sessions)) ∧
    (∀ t e, token = some t → t ≠ "" → sessions t = some e → e < now →
      (verify_session sessions token now).1 = false ∧
      (verify_session sessions token now).2 t = none ∧
      ∀ k, k ≠ t → (verify_session sessions token now).2 k = sessions k) ∧
    ((verify_session sessions token now).1 = true →
      (verify_session sessions token now).2 = sessions) := by
  refine ⟨?_, ?_, ?_, ?_, ?_⟩
  · -- acceptance characterization
    constructor
    · intro h1
      cases token with
      | none => exact absurd h1 (by simp [verify_session])
      | some t =>
        by_cases ht : t = ""
        · rw [ht] at h1
          exact absurd h1 (by simp [verify_session])
        · cases hs : sessions t with
          | none => simp [verify_session, ht, hs] at h1
          | some e =>
            by_cases hlt : e < now
            · simp [verify_session, ht, hs, hlt] at h1
            · exact ⟨t, e, rfl, ht, hs, by omega⟩
    · rintro ⟨t, e, h1, ht, hs, hle⟩
      subst h1
      have hlt : ¬ e < now := by omega
      simp [verify_session, ht, hs, hlt]
  · -- missing token
    intro h
    subst h
    rfl
  · -- token not in the store
    intro t h1 h2
    subst h1
    by_cases ht : t = "" <;> simp [verify_session, ht, h2]
  · -- present but expired: deleted
    intro t e h1 ht h2 hlt
    subst h1
    have heq : verify_session sessions (some t) now =
        (false, fun k => if k = t then none else sessions k) := by
      simp [verify_session, ht, h2, hlt]
    refine ⟨by rw [heq], by rw [heq]; simp, ?_⟩
    intro k hk
    rw [heq]
    simp [hk]
  · -- acceptance leaves the store unchanged
    intro h1
    cases token with
    | none => rfl
    | some t =>
      by_cases ht : t = ""
      · rw [ht]
        rfl
      · cases hs : sessions t with
        | none => simp [verify_session, ht, hs] at h1
        | some e =>
          by_cases hlt : e < now
          · simp [verify_session, ht, hs, hlt] at h1
          · simp [verify_session, ht, hs, hlt]

/-! ## C6: sheet layout offsets -/

/-- C6: for every four tables with row counts n1, n2, n3, n4 the
computed start rows are 0, n1 + 2, (n1 + 2) + n2 + 1 and that plus
n3 + 1; an empty table still gets its computed offset, contributes zero
rows to the later offsets, and is skipped when rendering (every block
actually written is nonempty); in particular row counts 3, 4, 0, 2
yield offsets 0, 5, 10, 11. -/
theorem c6_layout_offsets (BS IS CF SE : Table) :
    layoutOffsets BS IS CF SE =
      (0, BS.length + 2, BS.length + 2 + IS.length + 1,
        BS.length + 2 + IS.length + 1 + CF.length + 1) ∧
    (∀ w ∈ sheetWrites BS IS CF SE, w.table ≠ []) ∧
    layoutOffsets (List.replicate 3 "r") (List.replicate 4 "r") []
      (List.replicate 2 "r") = (0, 5, 10, 11) := by
  refine ⟨rfl, ?_, by decide⟩
  intro w hw
  simp only [sheetWrites, List.mem_append] at hw
  rcases hw with ((hw | hw) | hw) | hw <;> exact table_of_mem_optWrite hw

/-! ## C7: eviction sweep -/

/-- C7 counterexample: `procJob` is still mid-flight (its status
"processing" is not terminal), yet because its `expires_at` has passed
the sweep removes it — the sweep looks only at expiry, so the claim
that it never removes a job mid-flight is false at this input. -/
theorem c7_counterexample :
    cleanup_expired_jobs [("a", procJob)] 20 = [] ∧
      procJob.status ≠ "completed" ∧ procJob.status ≠ "error" := by
  decide

/-- C7 (amended): the eviction sweep removes exactly those job records
whose expiry timestamp has passed (keeping the rest as an unchanged
subsequence, every kept record identical); removal is decided by expiry
alone, so a job whose expiry has passed is removed even if it is still
mid-flight. -/
theorem c7_eviction_amended (jobs : List (String × Job)) (now : Int) :
    (cleanup_expired_jobs jobs now).Sublist jobs ∧
      ∀ p : String × Job, p ∈ cleanup_expired_jobs jobs now ↔
        p ∈ jobs ∧ ¬ p.2.expires_at.getD now < now :=
  ⟨List.filter_sublist _, fun p => mem_cleanup_iff jobs now p⟩

/-! ## C9: eviction boundary behaviour -/

/-- C9: a job record lacking an `expires_at` field is never removed by
the cleanup (the source defaults the missing value to `now`, and
`now > now` fails), and a record with an `expires_at` is removed iff
`now` is strictly greater — a job whose expiry equals the current time
is kept. -/
theorem c9_cleanup_expiry_strict (jobs : List (String × Job)) (now : Int)
    (p : String × Job) (hp : p ∈ jobs) :
    p ∈ cleanup_expired_jobs jobs now ↔
      p.2.expires_at = none ∨ ∃ e, p.2.expires_at = some e ∧ ¬ e < now := by
  rw [mem_cleanup_iff]
  cases h : p.2.expires_at <;> simp [h, hp]

/-- C9 witness: a completed record without `expires_at` survives the
sweep at time 5. -/
theorem c9_witness : ("a", jobNoExp) ∈ cleanup_expired_jobs [("a", jobNoExp)] 5 :=
  (c9_cleanup_expiry_strict [("a", jobNoExp)] 5 ("a", jobNoExp) (by decide)).mpr
    (Or.inl rfl)

/-! ## C8: download endpoint -/

/-- C8: for every authenticated download request the endpoint returns
the stored payload iff the job exists, is completed, and a result is
stored (with the stored attachment filename, defaulting to
"report.xlsx"); otherwise it fails with exactly 404 when the id is
unknown, 400 when the job exists but is not completed, and 500 when it
is completed without a stored payload. -/
theorem c8_download_cases (jobs : List (String × Job)) (job_id : String) :
    (∀ r : List Nat × String, download_job_result jobs job_id = Except.ok r ↔
      ∃ j, dictGet jobs job_id = some j ∧ j.status = "completed" ∧
        j.result = some r.1 ∧ r.2 = j.filename.getD "report.xlsx") ∧
    (download_job_result jobs job_id = Except.error 404 ↔ dictGet jobs job_id = none) ∧
    (download_job_result jobs job_id = Except.error 400 ↔
      ∃ j, dictGet jobs job_id = some j ∧ j.status ≠ "completed") ∧
    (download_job_result jobs job_id = Except.error 500 ↔
      ∃ j, dictGet jobs job_id = some j ∧ j.status = "completed" ∧ j.result = none) := by
  unfold download_job_result
  cases h : dictGet jobs job_id with
  | none => simp
  | some job =>
    by_cases hs : job.status = "completed"
    · cases hr : job.result with
      | none =>
        simp [hs, hr]
      | some r =>
        simp only [hs, hr, ne_eq, not_true_eq_false, if_false, Option.some.injEq]
        refine ⟨?_, by simp, by simp [hs], by simp [hs, hr]⟩
        intro p
        obtain ⟨p1, p2⟩ := p
        constructor
        · intro he
          cases he
          exact ⟨job, rfl, hs, hr, rfl⟩
        · rintro ⟨j, hj, _, hres, hfn⟩
          cases hj
          rw [hr] at hres
          cases hres
          simp only [Except.ok.injEq, Prod.mk.injEq]
          exact ⟨trivial, hfn.symm⟩
    · simp [hs]

/-! ## C10: process_data row index -/

/-- C10: for every input, `process_data` returns a frame whose row index
has no duplicate labels and is an order-preserving subsequence of the
fixed `ordered_rows` list — every label outside that list, including the
inserted blank gap rows, is dropped — and an empty input yields an empty
frame. -/
theorem c10_process_data_rows (records : List (List String)) :
    (process_data records).Sublist ordered_rows ∧
      (process_data records).Nodup ∧
      "" ∉ process_data records ∧
      process_data ([] : List (List String)) = [] := by
  have hnd : ordered_rows.Nodup := by decide
  have hsub : (process_data records).Sublist ordered_rows := by
    unfold process_data
    split
    · exact List.nil_sublist _
    · exact List.filter_sublist _
  refine ⟨hsub, hsub.nodup hnd, ?_, rfl⟩
  intro hmem
  have : "" ∈ ordered_rows := hsub.subset hmem
  exact absurd this (by decide)

/-! ## Worker lemmas: chain of allowed transitions -/

theorem batchPhase_chain (env : WorkerEnv) (ticker : String) :
    ∀ (l : List Nat) (j : Job) (acc : BatchAcc), j.status = "processing" →
      List.Chain stepOK j (batchPhase env ticker l j acc) := by
  intro l
  induction l with
  | nil =>
    intro j acc h
    rw [show batchPhase env ticker [] j acc = postBatches env ticker j acc from rfl]
    unfold postBatches
    by_cases hA : allEmpty acc = true
    · rw [if_pos hA]
      exact List.Chain.cons (Or.inr (Or.inr ⟨h, Or.inr rfl⟩)) List.Chain.nil
    · rw [if_neg hA]
      by_cases hB : env.assemblyOk = true
      · rw [if_pos hB]
        exact List.Chain.cons (Or.inl rfl) (List.Chain.cons (Or.inl rfl)
          (List.Chain.cons (Or.inr (Or.inr ⟨h, Or.inl rfl⟩)) List.Chain.nil))
      · rw [if_neg hB]
        exact List.Chain.cons (Or.inl rfl) (List.Chain.cons (Or.inl rfl)
          (List.Chain.cons (Or.inr (Or.inr ⟨h, Or.inr rfl⟩)) List.Chain.nil))
  | cons b rest ih =>
    intro j acc h
    exact List.Chain.cons (Or.inl rfl) (ih _ _ h)

/-- C1: job state transitions are monotonic.  The worker's trace, started
from the freshly created "pending" record, only ever performs the
transitions Pending to Processing, Processing to Completed and
Processing to Failed ("error"), and any step allowed by `stepOK` that
starts in a terminal state leaves the status unchanged — so no step of
the worker moves a job out of a terminal state. -/
theorem c1_state_monotonic (env : WorkerEnv) (ticker : String) (j0 : Job)
    (h : j0.status = "pending") :
    List.Chain stepOK j0 (process_job env ticker j0) ∧
      ∀ a b : Job, stepOK a b → a.status = "completed" ∨ a.status = "error" →
        b.status = a.status := by
  constructor
  · unfold process_job
    cases hT : env.tickerOk with
    | false =>
      simp only [hT, Bool.false_eq_true, if_false]
      exact List.Chain.cons (Or.inr (Or.inl ⟨h, rfl⟩)) (List.Chain.cons (Or.inl rfl)
        (List.Chain.cons (Or.inr (Or.inr ⟨rfl, Or.inr rfl⟩)) List.Chain.nil))
    | true =>
      simp only [hT, if_true]
      by_cases hN : env.totalFilings = 0
      · rw [if_pos hN]
        exact List.Chain.cons (Or.inr (Or.inl ⟨h, rfl⟩)) (List.Chain.cons (Or.inl rfl)
          (List.Chain.cons (Or.inl rfl)
            (List.Chain.cons (Or.inr (Or.inr ⟨rfl, Or.inr rfl⟩)) List.Chain.nil)))
      · rw [if_neg hN]
        exact List.Chain.cons (Or.inr (Or.inl ⟨h, rfl⟩)) (List.Chain.cons (Or.inl rfl)
          (List.Chain.cons (Or.inl rfl) (batchPhase_chain env ticker _ _ _ rfl)))
  · intro a b hs ht
    rcases hs with hs | ⟨h1, _⟩ | ⟨h1, _⟩
    · exact hs
    · rw [h1] at ht
      rcases ht with ht | ht <;> exact absurd ht (by decide)
    · rw [h1] at ht
      rcases ht with ht | ht <;> exact absurd ht (by decide)

/-- C1 witness: the chain property at a concrete environment and the
record created by the generate endpoint. -/
theorem c1_witness :
    List.Chain stepOK (newJob "ibm" 0) (process_job envAllOk "ibm" (newJob "ibm" 0)) :=
  (c1_state_monotonic envAllOk "ibm" (newJob "ibm" 0) rfl).1

/-! ## Worker lemmas: the record invariant -/

theorem jobInv_none {j : Job} (hj : jobInv j)
    (hc : j.status ≠ "completed") (he : j.status ≠ "error") :
    j.result = none ∧ j.error = none := by
  rcases hj with ⟨h1, h2⟩
  constructor
  · cases hr : j.result with
    | none => rfl
    | some v => exact absurd (h1.mp (by simp [hr])) hc
  · cases hr : j.error with
    | none => rfl
    | some v => exact absurd (h2.mp (by simp [hr])) he

theorem batchPhase_inv (env : WorkerEnv) (ticker : String) :
    ∀ (l : List Nat) (j : Job) (acc : BatchAcc), j.status = "processing" → jobInv j →
      ∀ x ∈ batchPhase env ticker l j acc, jobInv x := by
  intro l
  induction l with
  | nil =>
    intro j acc h hj x hx
    obtain ⟨hres, herr⟩ := jobInv_none hj (by rw [h]; decide) (by rw [h]; decide)
    rw [show batchPhase env ticker [] j acc = postBatches env ticker j acc from rfl] at hx
    unfold postBatches at hx
    by_cases hA : allEmpty acc = true
    · rw [if_pos hA] at hx
      simp only [List.mem_singleton] at hx
      subst hx
      exact ⟨by simp [mkFail, hres], by simp [mkFail]⟩
    · rw [if_neg hA] at hx
      by_cases hB : env.assemblyOk = true
      · rw [if_pos hB] at hx
        simp only [List.mem_cons, List.not_mem_nil, or_false] at hx
        rcases hx with hx | hx | hx <;> subst hx
        · exact hj
        · exact hj
        · exact ⟨by simp, by simp [herr]⟩
      · rw [if_neg hB] at hx
        simp only [List.mem_cons, List.not_mem_nil, or_false] at hx
        rcases hx with hx | hx | hx <;> subst hx
        · exact hj
        · exact hj
        · exact ⟨by simp [mkFail, hres], by simp [mkFail]⟩
  | cons b rest ih =>
    intro j acc h hj x hx
    rw [show batchPhase env ticker (b :: rest) j acc =
      ({ j with message := some (batchMsg b (numBatches env.totalFilings) env.totalFilings) } ::
        batchPhase env ticker rest
          { j with message := some (batchMsg b (numBatches env.totalFilings) env.totalFilings) }
          (stepAcc env acc b)) from rfl] at hx
    rcases List.mem_cons.mp hx with hx | hx
    · subst hx
      exact hj
    · exact ih { j with
          message := some (batchMsg b (numBatches env.totalFilings) env.totalFilings) }
        (stepAcc env acc b) h hj x hx

/-- C2: after every step of the worker (each contiguous group of writes
to the job record, starting from the freshly created record), `result`
is present iff the status is "completed" and `error` is present iff the
status is "error" (the Failed state). -/
theorem c2_result_error_iff_state (env : WorkerEnv) (ticker : String) (j0 : Job)
    (h : j0.status = "pending") (hr : j0.result = none) (he : j0.error = none) :
    ∀ x ∈ j0 :: process_job env ticker j0, jobInv x := by
  intro x hx
  rcases List.mem_cons.mp hx with hx | hx
  · subst hx
    exact ⟨by simp [hr, h], by simp [he, h]⟩
  · unfold process_job at hx
    cases hT : env.tickerOk with
    | false =>
      rw [hT] at hx
      simp only [Bool.false_eq_true, if_false, List.mem_cons, List.not_mem_nil,
        or_false] at hx
      rcases hx with hx | hx | hx <;> subst hx
      · exact ⟨by simp [hr], by simp [he]⟩
      · exact ⟨by simp [hr], by simp [he]⟩
      · exact ⟨by simp [mkFail, hr], by simp [mkFail]⟩
    | true =>
      rw [hT] at hx
      simp only [if_true] at hx
      by_cases hN : env.totalFilings = 0
      · rw [if_pos hN] at hx
        simp only [List.mem_cons, List.not_mem_nil, or_false] at hx
        rcases hx with hx | hx | hx | hx <;> subst hx
        · exact ⟨by simp [hr], by simp [he]⟩
        · exact ⟨by simp [hr], by simp [he]⟩
        · exact ⟨by simp [hr], by simp [he]⟩
        · exact ⟨by simp [mkFail, hr], by simp [mkFail]⟩
      · rw [if_neg hN] at hx
        simp only [List.mem_cons] at hx
        rcases hx with hx | hx | hx | hx
        · subst hx
          exact ⟨by simp [hr], by simp [he]⟩
        · subst hx
          exact ⟨by simp [hr], by simp [he]⟩
        · subst hx
          exact ⟨by simp [hr], by simp [he]⟩
        · exact batchPhase_inv env ticker _ _ _ rfl ⟨by simp [hr], by simp [he]⟩ x hx

/-- C2 witness: the invariant holds at the record the generate endpoint
creates. -/
theorem c2_witness : jobInv (newJob "ibm" 0) :=
  c2_result_error_iff_state envAllOk "ibm" (newJob "ibm" 0) rfl rfl rfl (newJob "ibm" 0)
    (List.mem_cons_self _ _)

/-! ## Worker lemmas: the accumulated lists and the final state -/

theorem isEmpty_of_append {α : Type} {l l' : List α}
    (h : (l ++ l').isEmpty = true) : l.isEmpty = true := by
  cases l <;> simp_all

theorem isEmpty_append_singleton_false {α : Type} (l : List α) (t : α) :
    (l ++ [t]).isEmpty = false := by
  cases l <;> simp

theorem allEmpty_pushBatch_rev (env : WorkerEnv) (b : Nat) (acc : BatchAcc)
    (h : allEmpty (pushBatch env b acc) = true) : allEmpty acc = true := by
  unfold pushBatch at h
  unfold allEmpty at h ⊢
  simp only [Bool.and_eq_true] at h ⊢
  obtain ⟨⟨⟨h1, h2⟩, h3⟩, h4⟩ := h
  exact ⟨⟨⟨isEmpty_of_append h1, isEmpty_of_append h2⟩, isEmpty_of_append h3⟩,
    isEmpty_of_append h4⟩

theorem allEmpty_stepAcc_rev (env : WorkerEnv) (b : Nat) (acc : BatchAcc)
    (h : allEmpty (stepAcc env acc b) = true) : allEmpty acc = true := by
  unfold stepAcc at h
  by_cases hf : env.batchFails b = true
  · rwa [if_pos hf] at h
  · rw [if_neg hf] at h
    exact allEmpty_pushBatch_rev env b acc h

theorem allEmpty_accAfter_all_fail (env : WorkerEnv) :
    ∀ (l : List Nat) (acc : BatchAcc), allEmpty acc = true →
      (∀ b ∈ l, env.batchFails b = true ∨
        (env.bsTab b = none ∧ env.isTab b = none ∧ env.cfTab b = none ∧
          env.seTab b = none)) →
      allEmpty (accAfter env l acc) = true := by
  intro l
  induction l with
  | nil =>
    intro acc h _
    exact h
  | cons b rest ih =>
    intro acc h hall
    have hstep : allEmpty (stepAcc env acc b) = true := by
      unfold stepAcc
      by_cases hf : env.batchFails b = true
      · rwa [if_pos hf]
      · rw [if_neg hf]
        rcases hall b (List.mem_cons_self _ _) with hb | ⟨h1, h2, h3, h4⟩
        · exact absurd hb hf
        · unfold pushBatch
          simpa [h1, h2, h3, h4] using h
    exact ih (stepAcc env acc b) hstep (fun x hx => hall x (List.mem_cons_of_mem _ hx))

theorem allEmpty_accAfter_false (env : WorkerEnv) :
    ∀ (l : List Nat) (acc : BatchAcc), allEmpty acc = false →
      allEmpty (accAfter env l acc) = false := by
  intro l
  induction l with
  | nil =>
    intro acc h
    exact h
  | cons b rest ih =>
    intro acc h
    apply ih
    cases hA : allEmpty (stepAcc env acc b) with
    | false => rfl
    | true => exact absurd (allEmpty_stepAcc_rev env b acc hA) (by simp [h])

theorem allEmpty_pushBatch_success (env : WorkerEnv) (b : Nat) (acc : BatchAcc)
    (hk : env.bsTab b ≠ none ∨ env.isTab b ≠ none ∨ env.cfTab b ≠ none ∨
      env.seTab b ≠ none) :
    allEmpty (pushBatch env b acc) = false := by
  unfold pushBatch allEmpty
  rcases hk with hk | hk | hk | hk
  · cases ht : env.bsTab b with
    | none => exact absurd ht hk
    | some t => simp [ht, isEmpty_append_singleton_false]
  · cases ht : env.isTab b with
    | none => exact absurd ht hk
    | some t => simp [ht, isEmpty_append_singleton_false]
  · cases ht : env.cfTab b with
    | none => exact absurd ht hk
    | some t => simp [ht, isEmpty_append_singleton_false]
  · cases ht : env.seTab b with
    | none => exact absurd ht hk
    | some t => simp [ht, isEmpty_append_singleton_false]

theorem allEmpty_accAfter_success (env : WorkerEnv) :
    ∀ (l : List Nat) (acc : BatchAcc),
      (∃ b ∈ l, env.batchFails b = false ∧
        (env.bsTab b ≠ none ∨ env.isTab b ≠ none ∨ env.cfTab b ≠ none ∨
          env.seTab b ≠ none)) →
      allEmpty (accAfter env l acc) = false := by
  intro l
  induction l with
  | nil =>
    rintro acc ⟨b, hb, _⟩
    exact absurd hb (List.not_mem_nil b)
  | cons b rest ih =>
    rintro acc ⟨b', hb', hf, hk⟩
    rcases List.mem_cons.mp hb' with rfl | hmem
    · have hstep : allEmpty (stepAcc env acc b') = false := by
        unfold stepAcc
        rw [if_neg (by simp [hf])]
        exact allEmpty_pushBatch_success env b' acc hk
      exact allEmpty_accAfter_false env rest (stepAcc env acc b') hstep
    · exact ih (stepAcc env acc b) ⟨b', hmem, hf, hk⟩

theorem batchPhase_final_noData (env : WorkerEnv) (ticker : String) :
    ∀ (l : List Nat) (j d : Job) (acc : BatchAcc),
      allEmpty (accAfter env l acc) = true →
      ((batchPhase env ticker l j acc).getLastD d).status = "error" ∧
        ((batchPhase env ticker l j acc).getLastD d).error = some noDataMsg := by
  intro l
  induction l with
  | nil =>
    intro j d acc h
    have h' : allEmpty acc = true := h
    rw [show batchPhase env ticker [] j acc = postBatches env ticker j acc from rfl]
    unfold postBatches
    rw [if_pos h']
    exact ⟨rfl, rfl⟩
  | cons b rest ih =>
    intro j d acc h
    rw [show batchPhase env ticker (b :: rest) j acc =
      ({ j with message := some (batchMsg b (numBatches env.totalFilings) env.totalFilings) } ::
        batchPhase env ticker rest
          { j with message := some (batchMsg b (numBatches env.totalFilings) env.totalFilings) }
          (stepAcc env acc b)) from rfl, getLastD_cons']
    exact ih _ _ (stepAcc env acc b) h

theorem batchPhase_final_completed (env : WorkerEnv) (ticker : String)
    (hB : env.assemblyOk = true) :
    ∀ (l : List Nat) (j d : Job) (acc : BatchAcc),
      allEmpty (accAfter env l acc) = false →
      ((batchPhase env ticker l j acc).getLastD d).status = "completed" ∧
        ∃ p, ((batchPhase env ticker l j acc).getLastD d).result = some p ∧ p ≠ [] := by
  intro l
  induction l with
  | nil =>
    intro j d acc h
    have h' : allEmpty acc = false := h
    rw [show batchPhase env ticker [] j acc = postBatches env ticker j acc from rfl]
    unfold postBatches
    rw [if_neg (by simp [h']), if_pos hB]
    refine ⟨rfl, ⟨_, rfl, ?_⟩⟩
    simp [xlsxBytes]
  | cons b rest ih =>
    intro j d acc h
    rw [show batchPhase env ticker (b :: rest) j acc =
      ({ j with message := some (batchMsg b (numBatches env.totalFilings) env.totalFilings) } ::
        batchPhase env ticker rest
          { j with message := some (batchMsg b (numBatches env.totalFilings) env.totalFilings) }
          (stepAcc env acc b)) from rfl, getLastD_cons']
    exact ih _ _ (stepAcc env acc b) h

/-- C3: for a run that reaches the batch loop (the ticker resolves and
at least one filing was found), if every batch fails for every one of
the four statement kinds — so all four accumulated table lists stay
empty — the job ends in the Failed state ("error") with the
no-extractable-data message; while if at least one batch survives
parsing and yields at least one statement kind and the remaining
assembly steps succeed, the job ends "completed" with a non-empty
stored payload. -/
theorem c3_extraction_outcome (env : WorkerEnv) (ticker : String) (j0 : Job)
    (hT : env.tickerOk = true) (hN : env.totalFilings ≠ 0) :
    ((∀ b ∈ List.range (numBatches env.totalFilings), env.batchFails b = true ∨
        (env.bsTab b = none ∧ env.isTab b = none ∧ env.cfTab b = none ∧
          env.seTab b = none)) →
      (process_jobFinal env ticker j0).status = "error" ∧
        (process_jobFinal env ticker j0).error = some noDataMsg) ∧
    ((∃ b ∈ List.range (numBatches env.totalFilings), env.batchFails b = false ∧
        (env.bsTab b ≠ none ∨ env.isTab b ≠ none ∨ env.cfTab b ≠ none ∨
          env.seTab b ≠ none)) →
      env.assemblyOk = true →
      (process_jobFinal env ticker j0).status = "completed" ∧
        ∃ p, (process_jobFinal env ticker j0).result = some p ∧ p ≠ []) := by
  constructor
  · intro hall
    simp only [process_jobFinal, process_job]
    split
    case isTrue =>
      rw [getLastD_cons', getLastD_cons', getLastD_cons']
      exact batchPhase_final_noData env ticker _ _ _ _
        (allEmpty_accAfter_all_fail env _ _ rfl hall)
    case isFalse hf => exact absurd hT hf
  · intro hex hB
    simp only [process_jobFinal, process_job]
    split
    case isTrue =>
      rw [getLastD_cons', getLastD_cons', getLastD_cons']
      exact batchPhase_final_completed env ticker hB _ _ _ _
        (allEmpty_accAfter_success env _ _ hex)
    case isFalse hf => exact absurd hT hf

/-- C3 witness: in `envAllFail` every batch fails, so the concrete final
job is Failed with the no-extractable-data message. -/
theorem c3_witness :
    (process_jobFinal envAllFail "ibm" (newJob "ibm" 0)).status = "error" ∧
      (process_jobFinal envAllFail "ibm" (newJob "ibm" 0)).error = some noDataMsg :=
  (c3_extraction_outcome envAllFail "ibm" (newJob "ibm" 0) rfl (by decide)).1
    (by decide)

end SecScraper
